import Mathlib

/-!
Verification of the tg_cnc_app repository: a shallow embedding of
`api/calc_modes.py`, `api/admin.py`, `api/gpt_materials.py` and `bot.py`,
together with theorems settling the specification claims.

Python floats are embedded as exact arithmetic (`ℚ`, and `ℝ` where the
spindle-speed formula divides by `π`); a Python exception is embedded as
`Option.none` / `Except.error`.
-/

/-- A Python value as far as this code base observes one: a number
(`float`/`int`/`bool`), a string, or anything else.  For the last case the
constructor carries the `str()` rendering of the value, which is all the
code ever looks at. -/
inductive PyVal where
  | vnum (q : ℚ)
  | vstr (s : String)
  | vother (reprS : String)
deriving DecidableEq

/-- `str.lower()` on one character, restricted to the alphabets this
application uses: ASCII `A`-`Z` (65-90) and Cyrillic `А`-`Я` (1040-1071)
and `Ё` (1025) map to their lowercase forms, every other character is
unchanged. -/
def pyLowerChar (c : Char) : Char :=
  let n := c.toNat
  if 65 ≤ n ∧ n ≤ 90 then Char.ofNat (n + 32)
  else if 1040 ≤ n ∧ n ≤ 1071 then Char.ofNat (n + 32)
  else if n = 1025 then Char.ofNat 1105
  else c

/-- Python `s.lower()`. -/
def pyLower (s : String) : String :=
  String.mk (s.toList.map pyLowerChar)

/-- Is `ns` a contiguous sublist of the second argument? -/
def pyInAux (ns : List Char) : List Char → Bool
  | [] => ns.isEmpty
  | c :: rest => ns.isPrefixOf (c :: rest) || pyInAux ns rest

/-- Python `needle in hay` on strings: substring containment. -/
def pyIn (needle hay : String) : Bool :=
  pyInAux needle.toList hay.toList

/-- Numeric value of a list of decimal digit characters. -/
def digitsVal (cs : List Char) : ℕ :=
  cs.foldl (fun n c => 10 * n + (c.toNat - 48)) 0

/-- Python `float(s)` on a string, modelled for plain decimal literals:
optional surrounding whitespace, optional sign, digits with an optional
fractional part.  Exponents, `inf`/`nan` and digit underscores are
conservatively rejected (`none` stands for `ValueError`). -/
def pyParseFloat (s : String) : Option ℚ :=
  let cs := ((s.toList.dropWhile Char.isWhitespace).reverse.dropWhile
      Char.isWhitespace).reverse
  let signBody : ℚ × List Char :=
    match cs with
    | '-' :: t => (-1, t)
    | '+' :: t => (1, t)
    | t => (1, t)
  let intPart := signBody.2.takeWhile Char.isDigit
  let rest := signBody.2.dropWhile Char.isDigit
  match rest with
  | [] =>
      if intPart.isEmpty then none
      else some (signBody.1 * (digitsVal intPart : ℚ))
  | '.' :: frac =>
      if frac.all Char.isDigit && !(intPart.isEmpty && frac.isEmpty) then
        some (signBody.1 *
          ((digitsVal intPart : ℚ) + (digitsVal frac : ℚ) / (10 : ℚ) ^ frac.length))
      else none
  | _ => none

/-- Python `float(v)`: numbers (including `bool`) convert to themselves,
strings are parsed, anything else raises `TypeError` (modelled as `none`). -/
def pyFloat : PyVal → Option ℚ
  | .vnum q => some q
  | .vstr s => pyParseFloat s
  | .vother _ => none

/-- Python `str(v)`.  The decimal rendering of a number never contains the
Cyrillic substrings this code tests for, so it is modelled as `""`;
non-string non-number values carry their rendering in the constructor. -/
def pyStr : PyVal → String
  | .vnum _ => ""
  | .vstr s => s
  | .vother r => r

/-- The `material_props` dictionary of `calc_modes.py`, projected to the
three keys the module reads; `none` models an absent key. -/
structure MaterialProps where
  machinability_index : Option PyVal
  temperature_risk : Option PyVal
  work_hardening : Option PyVal
deriving DecidableEq

/-- Python `round` to an integer: round-half-to-even (banker's rounding). -/
def pyRoundZ {α : Type} [LinearOrderedField α] [FloorRing α] (y : α) : ℤ :=
  if Int.fract y = 1 / 2 then (if Even ⌊y⌋ then ⌊y⌋ else ⌊y⌋ + 1) else round y

/-- Python `round(x, k)`: banker's rounding at `k` decimal places. -/
def pyRound {α : Type} [LinearOrderedField α] [FloorRing α] (k : ℕ) (x : α) : α :=
  ((pyRoundZ (x * 10 ^ k) : ℤ) : α) / 10 ^ k

/-- `_select_vc` of `calc_modes.py`.  `none` models the `float()`
conversion of a non-numeric `machinability_index` raising. -/
def _select_vc (tool_type tool_material : String) (material_props : MaterialProps) :
    Option ℚ :=
  (pyFloat ((material_props.machinability_index).getD (.vnum 0.6))).bind
    fun machinability =>
    let bm : ℚ × ℚ :=
      if pyLower tool_material = "hss" then
        (40, if tool_type = "drill" then 1.1 else 1.0)
      else if pyLower tool_material = "carbide" then
        (140, if tool_type = "mill" then 1.3 else 1.2)
      else
        (110, if tool_type = "mill" then 1.25 else 1.0)
    let temperature_risk :=
      pyLower (pyStr ((material_props.temperature_risk).getD (.vstr "средний")))
    let hp1 : ℚ :=
      if pyIn "выс" temperature_risk then 1.0 - 0.25
      else if pyIn "низ" temperature_risk then 1.0 + 0.1
      else 1.0
    let work_hardening :=
      pyLower (pyStr ((material_props.work_hardening).getD (.vstr "средняя")))
    let hardness_penalty : ℚ :=
      if pyIn "выс" work_hardening then hp1 - 0.1
      else if pyIn "низ" work_hardening then hp1 + 0.05
      else hp1
    some (max (bm.1 * machinability * bm.2 * hardness_penalty) 8.0)

/-- `_select_fz` of `calc_modes.py`. -/
def _select_fz (tool_type tool_material : String) (material_props : MaterialProps)
    (diameter : ℚ) : Option ℚ :=
  (pyFloat ((material_props.machinability_index).getD (.vnum 0.6))).bind
    fun machinability =>
    if tool_type = "drill" then
      let base : ℚ := if 10 < diameter then 0.12 else 0.08
      some (max (base * machinability) 0.04)
    else
      let tool_factor : ℚ :=
        if pyLower tool_material = "carbide" then 1.2
        else if pyLower tool_material = "hss" then 0.9
        else 1.0
      let dia_factor : ℚ := 0.045 + diameter / 100.0
      some (max (dia_factor * machinability * tool_factor) 0.02)

/-- The result dictionary of `calculate_cutting_modes`. -/
structure CutModes where
  vc : ℚ
  n : ℝ
  fz : ℚ
  feed : ℝ
  ap : ℚ
  ae : ℚ

/-- `calculate_cutting_modes` of `calc_modes.py`.  `none` models the
function raising (only possible through `float()` on a bad
`machinability_index`). -/
noncomputable def calculate_cutting_modes (tool_type tool_material : String)
    (material_props : MaterialProps) (diameter : ℚ) (teeth : ℤ) : Option CutModes :=
  let tt := pyLower tool_type
  let tm := pyLower tool_material
  (_select_vc tt tm material_props).bind fun vc =>
  (_select_fz tt tm material_props diameter).bind fun fz =>
    let n0 : ℝ :=
      if 0 < diameter then (1000 * (vc : ℝ)) / (Real.pi * (diameter : ℝ)) else 0
    let n : ℝ := max n0 1
    let total_teeth : ℤ := if 0 < teeth then teeth else if tt = "drill" then 2 else 4
    let feed : ℝ := (fz : ℝ) * (total_teeth : ℝ) * n
    let apae : ℚ × ℚ :=
      if tt = "drill" then (diameter * 2.0, diameter * 0.95)
      else (max (diameter * 0.2) 0.5, max (diameter * 0.6) 0.5)
    some { vc := pyRound 2 vc, n := pyRound 0 n, fz := pyRound 4 fz,
           feed := pyRound 1 feed, ap := pyRound 2 apae.1, ae := pyRound 2 apae.2 }

lemma pyRoundZ_intCast {α : Type} [LinearOrderedField α] [FloorRing α] (n : ℤ) :
    pyRoundZ ((n : α)) = n := by
  unfold pyRoundZ
  rw [Int.fract_intCast, if_neg (by norm_num), round_intCast]

/-- Rounding a value that is already an integer multiple of `10 ^ (-k)`
returns it unchanged. -/
lemma pyRound_eq_self {α : Type} [LinearOrderedField α] [FloorRing α] (k : ℕ) (x : α)
    (n : ℤ) (hx : x * 10 ^ k = (n : α)) : pyRound k x = x := by
  unfold pyRound
  rw [hx, pyRoundZ_intCast, ← hx]
  exact mul_div_cancel_right₀ x (by positivity)

lemma one_le_pyRoundZ {α : Type} [LinearOrderedField α] [FloorRing α] {y : α}
    (h : 1 ≤ y) : 1 ≤ pyRoundZ y := by
  unfold pyRoundZ
  have hf : (1 : ℤ) ≤ ⌊y⌋ := Int.le_floor.mpr (by exact_mod_cast h)
  split_ifs with h1 h2
  · exact hf
  · omega
  · rw [round_eq]
    refine Int.le_floor.mpr ?_
    push_cast
    linarith

lemma one_le_pyRound_zero {α : Type} [LinearOrderedField α] [FloorRing α] {y : α}
    (h : 1 ≤ y) : 1 ≤ pyRound 0 y := by
  unfold pyRound
  rw [pow_zero, mul_one, div_one]
  exact_mod_cast one_le_pyRoundZ h

/-- C1: for a carbide mill of diameter 10 mm on a material with
machinability index 1.0 and default (medium) temperature risk and work
hardening, the function returns exactly the documented formula values:
`vc = 140·1.0·1.3 = 182.0`, `n = round(1000·182/(π·10))`, `fz = 0.174`,
`feed = round(0.174·teeth·n, 1)` (with `n` unrounded), `ap = 2.0`,
`ae = 6.0`, each rounded as stated. -/
theorem calc_modes_carbide_mill_d10 (t : ℤ) (ht : 0 < t) :
    calculate_cutting_modes "mill" "carbide" ⟨some (.vnum 1), none, none⟩ 10 t =
      some { vc := 182, n := pyRound 0 ((1000 * 182) / (Real.pi * 10)),
             fz := 0.174,
             feed := pyRound 1 (0.174 * (t : ℝ) * ((1000 * 182) / (Real.pi * 10))),
             ap := 2, ae := 6 } := by
  have hvc : _select_vc (pyLower "mill") (pyLower "carbide")
      ⟨some (.vnum 1), none, none⟩ = some 182 := by
    have h : _select_vc (pyLower "mill") (pyLower "carbide")
        ⟨some (.vnum 1), none, none⟩ =
        some (max ((140 : ℚ) * 1 * 1.3 * 1.0) 8.0) := rfl
    rw [h, max_eq_left (by norm_num)]; norm_num
  have hfz : _select_fz (pyLower "mill") (pyLower "carbide")
      ⟨some (.vnum 1), none, none⟩ 10 = some 0.174 := by
    have h : _select_fz (pyLower "mill") (pyLower "carbide")
        ⟨some (.vnum 1), none, none⟩ 10 =
        some (max (((0.045 : ℚ) + 10 / 100.0) * 1 * 1.2) 0.02) := rfl
    rw [h, max_eq_left (by norm_num)]; norm_num
  have hπ : (1 : ℝ) ≤ 1000 * 182 / (Real.pi * 10) := by
    rw [le_div_iff₀ (by positivity)]
    nlinarith [Real.pi_le_four]
  simp only [calculate_cutting_modes, hvc, hfz, Option.some_bind, ht, if_pos]
  simp only [Option.some.injEq, CutModes.mk.injEq]
  refine ⟨?_, ?_, ?_, ?_, ?_, ?_⟩
  · exact pyRound_eq_self 2 182 18200 (by norm_num)
  · congr 1
    push_cast
    rw [if_pos (by norm_num : (0 : ℚ) < 10), max_eq_left hπ]
  · exact pyRound_eq_self 4 0.174 1740 (by norm_num)
  · congr 1
    push_cast
    rw [if_pos (by norm_num : (0 : ℚ) < 10), max_eq_left hπ]
  · rw [if_neg (by decide : ¬ pyLower "mill" = "drill")]
    have : max ((10 : ℚ) * 0.2) 0.5 = 2 := by rw [max_eq_left (by norm_num)]; norm_num
    dsimp only
    rw [this]
    exact pyRound_eq_self 2 2 200 (by norm_num)
  · rw [if_neg (by decide : ¬ pyLower "mill" = "drill")]
    have : max ((10 : ℚ) * 0.6) 0.5 = 6 := by rw [max_eq_left (by norm_num)]; norm_num
    dsimp only
    rw [this]
    exact pyRound_eq_self 2 6 600 (by norm_num)

/-- Witness for C1 at tooth count 4. -/
theorem calc_modes_carbide_mill_d10_witness :
    (0 : ℤ) < 4 ∧
      calculate_cutting_modes "mill" "carbide" ⟨some (.vnum 1), none, none⟩ 10 4 =
      some { vc := 182, n := pyRound 0 ((1000 * 182) / (Real.pi * 10)),
             fz := 0.174,
             feed := pyRound 1 (0.174 * ((4 : ℤ) : ℝ) * ((1000 * 182) / (Real.pi * 10))),
             ap := 2, ae := 6 } :=
  ⟨by decide, calc_modes_carbide_mill_d10 4 (by decide)⟩

/-- C2 counterexample: with a `machinability_index` that is neither a
number nor a numeric string (here a Python list, whose `str()` is `"[]"`),
`float()` raises `TypeError`, so `calculate_cutting_modes` raises instead
of returning a result dict. -/
theorem calc_modes_raises_on_nonnumeric_machinability :
    calculate_cutting_modes "mill" "steel" ⟨some (.vother "[]"), none, none⟩ 10 2 =
      none := rfl

/-- C2 (amended): whenever the `machinability_index` value (or its 0.6
default) is `float()`-convertible, `calculate_cutting_modes` returns a
result dict for every tool type, tool material, diameter (including zero
and negative) and tooth count — no error, only floor clamps. -/
theorem calc_modes_total_of_numeric_machinability (tool_type tool_material : String)
    (material_props : MaterialProps) (diameter : ℚ) (teeth : ℤ)
    (h : (pyFloat ((material_props.machinability_index).getD (.vnum 0.6))).isSome = true) :
    (calculate_cutting_modes tool_type tool_material material_props diameter teeth).isSome
      = true := by
  obtain ⟨q, hq⟩ := Option.isSome_iff_exists.mp h
  simp only [calculate_cutting_modes, _select_vc, _select_fz, hq, Option.some_bind]
  split <;> simp

/-- Witness for C2's amended theorem. -/
theorem calc_modes_total_of_numeric_machinability_witness :
    (pyFloat (((MaterialProps.mk (some (.vnum 1)) none none).machinability_index).getD
        (.vnum 0.6))).isSome = true ∧
    (calculate_cutting_modes "mill" "carbide" (MaterialProps.mk (some (.vnum 1)) none none)
        10 4).isSome = true :=
  ⟨rfl, calc_modes_total_of_numeric_machinability "mill" "carbide" _ 10 4 rfl⟩

/-- C3: whenever `calculate_cutting_modes` returns a result, its spindle
speed `n` is at least 1.0, regardless of diameter (including zero and
negative), cutting speed or any other input. -/
theorem calc_modes_spindle_speed_ge_one (tool_type tool_material : String)
    (material_props : MaterialProps) (diameter : ℚ) (teeth : ℤ) :
    (calculate_cutting_modes tool_type tool_material material_props diameter teeth).elim
      True (fun r => 1 ≤ r.n) := by
  unfold calculate_cutting_modes
  cases hvc : _select_vc (pyLower tool_type) (pyLower tool_material) material_props with
  | none => simp [hvc]
  | some vc =>
    cases hfz : _select_fz (pyLower tool_type) (pyLower tool_material) material_props
        diameter with
    | none => simp [hvc, hfz]
    | some fz =>
      simp only [hvc, hfz, Option.some_bind, Option.elim_some]
      exact one_le_pyRound_zero (le_max_right _ _)

/-- C4: on success, the feed rate is `round(fz · total_teeth · n, 1)` where
`n` is the unrounded spindle speed and `total_teeth` is the given tooth
count when positive, else 2 for drills and 4 otherwise. -/
theorem calc_modes_feed_formula_and_teeth_fallback (tool_type tool_material : String)
    (material_props : MaterialProps) (diameter : ℚ) (teeth : ℤ) (vc fz : ℚ)
    (hvc : _select_vc (pyLower tool_type) (pyLower tool_material) material_props = some vc)
    (hfz : _select_fz (pyLower tool_type) (pyLower tool_material) material_props diameter
      = some fz) :
    ∃ r, calculate_cutting_modes tool_type tool_material material_props diameter teeth
        = some r ∧
      r.feed = pyRound 1 ((fz : ℝ) *
        (((if 0 < teeth then teeth else
            if pyLower tool_type = "drill" then 2 else 4) : ℤ) : ℝ) *
        max (if 0 < diameter then (1000 * (vc : ℝ)) / (Real.pi * (diameter : ℝ)) else 0)
          1) ∧
      (teeth ≤ 0 →
        ((if 0 < teeth then teeth else
            if pyLower tool_type = "drill" then 2 else 4) : ℤ) =
          (if pyLower tool_type = "drill" then 2 else 4)) := by
  simp only [calculate_cutting_modes, hvc, hfz, Option.some_bind]
  exact ⟨_, rfl, rfl, fun hle => if_neg (by omega)⟩

set_option maxHeartbeats 1000000 in
/-- Witness for C4 at a drill of diameter 0 with tooth count -1. -/
theorem calc_modes_feed_formula_and_teeth_fallback_witness :
    _select_vc (pyLower "drill") (pyLower "x") ⟨none, none, none⟩ =
        some (max ((110 : ℚ) * 0.6 * 1.0 * 1.0) 8.0) ∧
    _select_fz (pyLower "drill") (pyLower "x") ⟨none, none, none⟩ 0 =
        some (max ((0.08 : ℚ) * 0.6) 0.04) ∧
    ∃ r, calculate_cutting_modes "drill" "x" ⟨none, none, none⟩ 0 (-1) = some r ∧
      r.feed = pyRound 1 (((max ((0.08 : ℚ) * 0.6) 0.04 : ℚ) : ℝ) *
        (((if 0 < (-1 : ℤ) then (-1 : ℤ) else
            if pyLower "drill" = "drill" then 2 else 4) : ℤ) : ℝ) *
        max (if 0 < (0 : ℚ) then
            (1000 * ((max ((110 : ℚ) * 0.6 * 1.0 * 1.0) 8.0 : ℚ) : ℝ)) /
              (Real.pi * ((0 : ℚ) : ℝ)) else 0) 1) ∧
      ((-1 : ℤ) ≤ 0 →
        ((if 0 < (-1 : ℤ) then (-1 : ℤ) else
            if pyLower "drill" = "drill" then 2 else 4) : ℤ) =
          (if pyLower "drill" = "drill" then 2 else 4)) := by
  refine ⟨rfl, rfl, ?_⟩
  exact calc_modes_feed_formula_and_teeth_fallback "drill" "x" ⟨none, none, none⟩
    0 (-1) (max ((110 : ℚ) * 0.6 * 1.0 * 1.0) 8.0) (max ((0.08 : ℚ) * 0.6) 0.04)
    rfl rfl

/-- A stored allow-list entry of `db/users.json`.  The admin code only
ever inspects `str(u.get("id"))`, so `idS` models that string form of the
entry's id (a missing key would read `"None"`). -/
structure Entry where
  idS : String
  name : String
deriving DecidableEq

/-- Python `str()` of an `int`; Lean's rendering of `ℤ` coincides. -/
def intStr (n : ℤ) : String := toString n

/-- `add_user` of `admin.py`, over the stored user list.  `Except.error`
models the duplicate-user `ValueError`, in which case no write occurs;
`Except.ok` carries the saved list and the new entry. -/
def add_user (users : List Entry) (user_id : ℤ) (full_name : String) :
    Except String (List Entry × Entry) :=
  if users.any (fun u => u.idS == intStr user_id) then
    Except.error "Пользователь уже существует"
  else
    let entry : Entry := ⟨intStr user_id, if full_name = "" then "Без имени" else full_name⟩
    Except.ok (users ++ [entry], entry)

/-- `delete_user` of `admin.py`: keeps the entries whose id string differs
from `str(user_id)`. -/
def delete_user (users : List Entry) (user_id : ℤ) : List Entry :=
  users.filter (fun u => !(u.idS == intStr user_id))

/-- `is_user_authorised` of `admin.py`. -/
def is_user_authorised (users : List Entry) (user_id : ℤ) : Bool :=
  users.any (fun u => u.idS == intStr user_id)

/-- One mutation of the stored allow-list. -/
inductive AdminOp where
  | add (user_id : ℤ) (full_name : String)
  | del (user_id : ℤ)

/-- Effect of one admin operation on the stored file: a failed `add_user`
raises before `save_users`, leaving the file unchanged. -/
def runOp (users : List Entry) : AdminOp → List Entry
  | .add uid name =>
    match add_user users uid name with
    | .ok p => p.1
    | .error _ => users
  | .del uid => delete_user users uid

/-- C5: adding a user whose id (as a string) is already present raises the
duplicate-user error and leaves the stored list unchanged. -/
theorem add_user_duplicate_rejected (users : List Entry) (uid : ℤ) (full_name : String)
    (h : ∃ u ∈ users, u.idS = intStr uid) :
    add_user users uid full_name = Except.error "Пользователь уже существует" ∧
    runOp users (.add uid full_name) = users := by
  obtain ⟨u, hu, hid⟩ := h
  have hany : users.any (fun u => u.idS == intStr uid) = true :=
    List.any_eq_true.mpr ⟨u, hu, by simp [hid]⟩
  have hadd : add_user users uid full_name =
      Except.error "Пользователь уже существует" := by
    unfold add_user
    rw [if_pos hany]
  refine ⟨hadd, ?_⟩
  simp only [runOp]
  rw [hadd]

/-- Witness for C5 on a one-entry list. -/
theorem add_user_duplicate_rejected_witness :
    (∃ u ∈ [Entry.mk "5" "a"], u.idS = intStr 5) ∧
    (add_user [Entry.mk "5" "a"] 5 "b" = Except.error "Пользователь уже существует" ∧
      runOp [Entry.mk "5" "a"] (.add 5 "b") = [Entry.mk "5" "a"]) :=
  ⟨by decide, add_user_duplicate_rejected [Entry.mk "5" "a"] 5 "b" (by decide)⟩

/-- The stored ids (as strings) are pairwise distinct. -/
def idsNodup (users : List Entry) : Prop := (users.map Entry.idS).Nodup

lemma idsNodup_runOp (users : List Entry) (op : AdminOp) (h : idsNodup users) :
    idsNodup (runOp users op) := by
  cases op with
  | add uid name =>
    simp only [runOp]
    by_cases hany : users.any (fun u => u.idS == intStr uid) = true
    · have hadd : add_user users uid name =
          Except.error "Пользователь уже существует" := by
        unfold add_user
        rw [if_pos hany]
      rw [hadd]
      exact h
    · have hadd : add_user users uid name =
          Except.ok (users ++ [⟨intStr uid, if name = "" then "Без имени" else name⟩],
            ⟨intStr uid, if name = "" then "Без имени" else name⟩) := by
        unfold add_user
        rw [if_neg hany]
      rw [hadd]
      unfold idsNodup at h ⊢
      rw [List.map_append]
      refine h.append (by simp) ?_
      intro s hs hs'
      simp only [List.map_cons, List.map_nil, List.mem_singleton] at hs'
      obtain ⟨u, hu, hus⟩ := List.mem_map.mp hs
      apply hany
      refine List.any_eq_true.mpr ⟨u, hu, ?_⟩
      rw [hus, hs']
      exact beq_self_eq_true _
  | del uid =>
    simp only [runOp]
    unfold delete_user idsNodup
    exact h.sublist ((List.filter_sublist _).map Entry.idS)

/-- C8: from any stored list with pairwise-distinct id strings, every
sequence of `add_user`/`delete_user` operations preserves that
distinctness. -/
theorem users_ids_nodup_invariant (users : List Entry) (ops : List AdminOp)
    (h : idsNodup users) : idsNodup (ops.foldl runOp users) := by
  induction ops generalizing users with
  | nil => exact h
  | cons op rest ih => exact ih _ (idsNodup_runOp users op h)

/-- Witness for C8 on a small operation sequence. -/
theorem users_ids_nodup_invariant_witness :
    idsNodup [Entry.mk "5" "a"] ∧
    idsNodup ([AdminOp.add 7 "b", AdminOp.add 7 "c", AdminOp.del 5].foldl runOp
      [Entry.mk "5" "a"]) :=
  ⟨by unfold idsNodup; decide, users_ids_nodup_invariant [Entry.mk "5" "a"]
    [AdminOp.add 7 "b", AdminOp.add 7 "c", AdminOp.del 5] (by unfold idsNodup; decide)⟩

/-- C10: `delete_user` removes exactly the entries whose id string equals
`str(user_id)` — the result is a sublist (other entries unchanged, in
order), keeps every non-matching entry, contains no matching entry, the
deleted id is no longer authorised, and deleting twice equals deleting
once. -/
theorem delete_user_removes_all_matching (users : List Entry) (uid : ℤ) :
    (delete_user users uid).Sublist users ∧
    (∀ u ∈ users, u.idS ≠ intStr uid → u ∈ delete_user users uid) ∧
    (∀ u ∈ delete_user users uid, u.idS ≠ intStr uid) ∧
    is_user_authorised (delete_user users uid) uid = false ∧
    delete_user (delete_user users uid) uid = delete_user users uid := by
  refine ⟨List.filter_sublist _, ?_, ?_, ?_, ?_⟩
  · intro u hu hne
    exact List.mem_filter.mpr ⟨hu, by simpa using hne⟩
  · intro u hu
    have h2 := (List.mem_filter.mp hu).2
    simpa using h2
  · unfold is_user_authorised delete_user
    rw [List.any_eq_false]
    intro u hu
    have h2 := (List.mem_filter.mp hu).2
    simpa using h2
  · unfold delete_user
    rw [List.filter_filter]
    exact List.filter_congr (by simp)

/-- Witness for C10 on a two-entry list. -/
theorem delete_user_removes_all_matching_witness :
    (delete_user [Entry.mk "5" "a", Entry.mk "6" "b"] 5).Sublist
        [Entry.mk "5" "a", Entry.mk "6" "b"] ∧
    (∀ u ∈ [Entry.mk "5" "a", Entry.mk "6" "b"], u.idS ≠ intStr 5 →
      u ∈ delete_user [Entry.mk "5" "a", Entry.mk "6" "b"] 5) ∧
    (∀ u ∈ delete_user [Entry.mk "5" "a", Entry.mk "6" "b"] 5, u.idS ≠ intStr 5) ∧
    is_user_authorised (delete_user [Entry.mk "5" "a", Entry.mk "6" "b"] 5) 5 = false ∧
    delete_user (delete_user [Entry.mk "5" "a", Entry.mk "6" "b"] 5) 5 =
      delete_user [Entry.mk "5" "a", Entry.mk "6" "b"] 5 :=
  delete_user_removes_all_matching [Entry.mk "5" "a", Entry.mk "6" "b"] 5

/-- A parsed JSON value, as stored in the `db/*.json` files. -/
inductive Jval where
  | jnull
  | jbool (b : Bool)
  | jnum (q : ℚ)
  | jstr (s : String)
  | jarr (xs : List Jval)
  | jobj (kvs : List (String × Jval))

/-- The observable state of a data file: missing, present but not
parseable as JSON (`json.load` raises `JSONDecodeError`), or holding a
parsed value. -/
inductive FileData where
  | absent
  | malformed
  | holds (v : Jval)

/-- `_load_json` of `admin.py`: returns the default when the file is
missing or fails to parse. -/
def _load_json (f : FileData) (default : Jval) : Jval :=
  match f with
  | .absent => default
  | .malformed => default
  | .holds v => v

/-- `get_users` of `admin.py` at the file level: the parsed value if it
is a list, else the empty list. -/
def get_users (f : FileData) : List Jval :=
  match _load_json f (.jarr []) with
  | .jarr xs => xs
  | _ => []

/-- `get_history` of `admin.py` at the file level. -/
def get_history (f : FileData) : List Jval :=
  match _load_json f (.jarr []) with
  | .jarr xs => xs
  | _ => []

/-- Python `s.strip()`: drop leading and trailing whitespace. -/
def pyStrip (s : String) : String :=
  String.mk (((s.toList.dropWhile Char.isWhitespace).reverse.dropWhile
      Char.isWhitespace).reverse)

namespace GptMaterials

/-- `_load_json` of `gpt_materials.py`: returns `{}` when the file is
missing or fails to parse. -/
def _load_json (f : FileData) : Jval :=
  match f with
  | .absent => .jobj []
  | .malformed => .jobj []
  | .holds v => v

/-- `load_materials` of `gpt_materials.py`: the parsed value if it is a
dict, else the empty dict. -/
def load_materials (f : FileData) : List (String × Jval) :=
  match _load_json f with
  | .jobj kvs => kvs
  | _ => []

/-- The cache key for a material: `name.strip().lower()`. -/
def normKey (name : String) : String := pyLower (pyStrip name)

/-- Python dict assignment `d[k] = v`: replaces the value of an existing
key in place, otherwise appends the pair. -/
def dictSet (m : List (String × Jval)) (k : String) (v : Jval) :
    List (String × Jval) :=
  if m.any (fun kv => kv.1 == k) then
    m.map (fun kv => if kv.1 == k then (k, v) else kv)
  else m ++ [(k, v)]

/-- `save_material` of `gpt_materials.py`, over the cache contents. -/
def save_material (materials : List (String × Jval)) (name : String)
    (properties : Jval) : List (String × Jval) :=
  dictSet materials (normKey name) properties

/-- The observable outcome of `analyse_material`: the returned record,
the cache contents afterwards, and whether the external GPT call ran. -/
structure AnalyseOutcome where
  result : Jval
  cache : List (String × Jval)
  gptCalled : Bool

/-- `analyse_material` of `gpt_materials.py`.  The external call
`analyse_with_gpt(material_name)` is modelled by the `gptResult`
parameter; on a cache hit it is not consulted. -/
def analyse_material (materials : List (String × Jval)) (gptResult : Jval)
    (material_name : String) : AnalyseOutcome :=
  match materials.lookup (normKey material_name) with
  | some props => ⟨props, materials, false⟩
  | none => ⟨gptResult, save_material materials material_name gptResult, true⟩

end GptMaterials

/-- C6: a data file that is not parseable as JSON — or parses to a value
of the wrong shape — makes `get_users`, `get_history` and
`load_materials` return their empty defaults instead of raising. -/
theorem accessors_empty_on_bad_data (v : Jval)
    (harr : ∀ xs, v ≠ Jval.jarr xs) (hobj : ∀ kvs, v ≠ Jval.jobj kvs) :
    get_users .malformed = [] ∧ get_history .malformed = [] ∧
    GptMaterials.load_materials .malformed = [] ∧
    get_users (.holds v) = [] ∧ get_history (.holds v) = [] ∧
    GptMaterials.load_materials (.holds v) = [] := by
  refine ⟨rfl, rfl, rfl, ?_, ?_, ?_⟩ <;>
    cases v <;>
      first
        | rfl
        | exact absurd rfl (harr _)
        | exact absurd rfl (hobj _)

/-- Witness for C6 at the JSON value `null`. -/
theorem accessors_empty_on_bad_data_witness :
    (∀ xs, Jval.jnull ≠ Jval.jarr xs) ∧ (∀ kvs, Jval.jnull ≠ Jval.jobj kvs) ∧
    (get_users .malformed = [] ∧ get_history .malformed = [] ∧
      GptMaterials.load_materials .malformed = [] ∧
      get_users (.holds Jval.jnull) = [] ∧ get_history (.holds Jval.jnull) = [] ∧
      GptMaterials.load_materials (.holds Jval.jnull) = []) :=
  ⟨fun _ h => Jval.noConfusion h, fun _ h => Jval.noConfusion h,
    accessors_empty_on_bad_data Jval.jnull (fun _ h => Jval.noConfusion h)
      (fun _ h => Jval.noConfusion h)⟩

/-- C7: a material whose stripped, lower-cased name is a cache key is
answered from the cache: the cached record is returned, the external GPT
call does not run, and the cache is unchanged; the lookup key is the
case-folded name, so names differing only in case (or surrounding
whitespace) hit the same entry. -/
theorem analyse_material_cache_hit (materials : List (String × Jval))
    (gptResult : Jval) (name other : String) (props : Jval)
    (hkey : GptMaterials.normKey name = GptMaterials.normKey other)
    (hit : materials.lookup (GptMaterials.normKey other) = some props) :
    GptMaterials.analyse_material materials gptResult name =
      ⟨props, materials, false⟩ := by
  unfold GptMaterials.analyse_material
  rw [hkey, hit]

/-- Witness for C7: `"СТАЛЬ "` (upper case, trailing blank) hits the entry
cached under `"сталь"`. -/
theorem analyse_material_cache_hit_witness :
    GptMaterials.normKey "СТАЛЬ " = GptMaterials.normKey "сталь" ∧
    [("сталь", Jval.jnull)].lookup (GptMaterials.normKey "сталь") = some Jval.jnull ∧
    GptMaterials.analyse_material [("сталь", Jval.jnull)] (Jval.jobj []) "СТАЛЬ " =
      ⟨Jval.jnull, [("сталь", Jval.jnull)], false⟩ :=
  ⟨rfl, rfl, analyse_material_cache_hit [("сталь", Jval.jnull)] (Jval.jobj [])
    "СТАЛЬ " "сталь" Jval.jnull rfl rfl⟩

/-- Python's regex word character `\w` (letters, digits, underscore), for
the alphabets this application sees: ASCII alphanumerics, `_`, and
Cyrillic letters (`А`-`я`, `Ё`, `ё`). -/
def isWordChar (c : Char) : Bool :=
  c.isAlphanum || c == '_' || (1040 ≤ c.toNat && c.toNat ≤ 1103) ||
    c.toNat == 1025 || c.toNat == 1105

/-- Single pass of the `\b\d{4,}\b` matcher: `runRev` is the digit run
read so far (reversed) and `startOk` records whether the character before
that run was a word boundary.  A run is reported when it is at least four
digits long and both of its ends sit on word boundaries. -/
def scanAux (runRev : List Char) (startOk : Bool) : List Char → List String
  | [] =>
    if startOk && decide (4 ≤ runRev.length) then [String.mk runRev.reverse] else []
  | c :: rest =>
    if c.isDigit then scanAux (c :: runRev) startOk rest
    else
      (if startOk && decide (4 ≤ runRev.length) && !(isWordChar c) then
        [String.mk runRev.reverse] else []) ++
      scanAux [] (!(isWordChar c)) rest

/-- All matches of `re.finditer(r"\b\d{4,}\b", text)` in order: maximal
digit runs of length at least 4 delimited by word boundaries. -/
def scanIds (cs : List Char) : List String := scanAux [] true cs

/-- Lexicographic comparison of strings by code point — Python's string
order. -/
def listLeChars : List Char → List Char → Bool
  | [], _ => true
  | _ :: _, [] => false
  | a :: as, b :: bs =>
    if a.toNat < b.toNat then true
    else if b.toNat < a.toNat then false
    else listLeChars as bs

/-- `a <= b` on strings, by code point. -/
def strLe (a b : String) : Bool := listLeChars a.toList b.toList

/-- Insert into a sorted list of strings, keeping it sorted. -/
def insertSorted (a : String) : List String → List String
  | [] => [a]
  | b :: rest => if strLe a b then a :: b :: rest else b :: insertSorted a rest

/-- Sort strings lexicographically (Python `sorted`). -/
def sortStrings (l : List String) : List String := l.foldr insertSorted []

/-- `_extract_candidate_ids` of `bot.py`: `sorted({m for m in
re.finditer(r"\b\d{4,}\b", text)})` with an empty-text guard. -/
def _extract_candidate_ids (text : String) : List String :=
  if text = "" then [] else sortStrings (scanIds text.toList).dedup

/-- Python `int()` of a digits-only candidate string. -/
def pyInt (s : String) : ℤ := (digitsVal s.toList : ℤ)

/-- The per-candidate reply of `_handle_admin_action`: success, duplicate
(a `ValueError` from `add_user`), or the generic unexpected-error reply
(unreachable in this model, where `add_user` only fails on duplicates). -/
inductive RegStatus where
  | added
  | duplicate
  | failed
deriving DecidableEq

/-- `_handle_admin_action` of `bot.py`: registers each candidate in turn,
collecting one reply per candidate and threading the stored user list. -/
def _handle_admin_action : List Entry → List String →
    List (String × RegStatus) × List Entry
  | users, [] => ([], users)
  | users, c :: rest =>
    match add_user users (pyInt c) "" with
    | .error _ =>
      let r := _handle_admin_action users rest
      ((c, RegStatus.duplicate) :: r.1, r.2)
    | .ok p =>
      let r := _handle_admin_action p.1 rest
      ((c, RegStatus.added) :: r.1, r.2)

/-- `handle_text` of `bot.py`, restricted to its registration effect: the
per-candidate replies and the resulting stored user list.  The
unconditional "your Telegram ID" reply and the Telegram transport are not
modelled; `sender = none` models a message without an effective user. -/
def handle_text (adminIds : List String) (users : List Entry) (sender : Option ℤ)
    (text : String) : List (String × RegStatus) × List Entry :=
  match sender with
  | none => ([], users)
  | some uid =>
    if intStr uid ∈ adminIds then
      let candidates := (_extract_candidate_ids text).filter (fun cid => cid != intStr uid)
      if candidates.isEmpty then ([], users)
      else _handle_admin_action users candidates
    else ([], users)

/-- C9 counterexample: an admin whose ID is 12345 sends the message
"12345".  The text has the 4-or-more-digit numeric substrings "1234",
"2345" and "12345", yet the handler registers nothing and sends no
per-candidate reply: it drops the sender's own ID (and only ever
considers maximal word-delimited digit runs, not every substring). -/
theorem handle_text_skips_sender_own_id :
    handle_text ["12345"] [] (some 12345) "12345" = ([], []) := by decide

lemma handle_admin_action_replies (cs : List String) : ∀ users : List Entry,
    ((_handle_admin_action users cs).1.map Prod.fst = cs) ∧
    ∀ p ∈ (_handle_admin_action users cs).1,
      p.2 = RegStatus.added ∨ p.2 = RegStatus.duplicate := by
  induction cs with
  | nil =>
    intro users
    constructor
    · simp [_handle_admin_action]
    · intro p hp
      simp [_handle_admin_action] at hp
  | cons c rest ih =>
    intro users
    cases h : add_user users (pyInt c) "" with
    | error e =>
      constructor
      · simp only [_handle_admin_action, h, List.map_cons]
        rw [(ih users).1]
      · intro p hp
        simp only [_handle_admin_action, h] at hp
        rcases List.mem_cons.mp hp with rfl | hp2
        · exact Or.inr rfl
        · exact (ih users).2 p hp2
    | ok q =>
      constructor
      · simp only [_handle_admin_action, h, List.map_cons]
        rw [(ih q.1).1]
      · intro p hp
        simp only [_handle_admin_action, h] at hp
        rcases List.mem_cons.mp hp with rfl | hp2
        · exact Or.inl rfl
        · exact (ih q.1).2 p hp2

/-- C9 (amended): for a text message from a sender whose ID is in the
admin set, the handler registers each maximal word-delimited numeric run
of at least 4 digits, except the sender's own ID, deduplicated and in
sorted order — one reply per candidate, each a success or a duplicate
report (the generic error reply is reserved for unexpected failures). -/
theorem handle_text_registers_candidates (adminIds : List String) (users : List Entry)
    (uid : ℤ) (text : String) (h : intStr uid ∈ adminIds) :
    ((handle_text adminIds users (some uid) text).1.map Prod.fst =
      (_extract_candidate_ids text).filter (fun cid => cid != intStr uid)) ∧
    ∀ p ∈ (handle_text adminIds users (some uid) text).1,
      p.2 = RegStatus.added ∨ p.2 = RegStatus.duplicate := by
  have hh : handle_text adminIds users (some uid) text =
      (if ((_extract_candidate_ids text).filter (fun cid => cid != intStr uid)).isEmpty
          = true
        then (([], users) : List (String × RegStatus) × List Entry)
        else _handle_admin_action users
          ((_extract_candidate_ids text).filter (fun cid => cid != intStr uid))) := by
    simp only [handle_text]
    rw [if_pos h]
  rw [hh]
  by_cases hc : ((_extract_candidate_ids text).filter (fun cid => cid != intStr uid)).isEmpty
      = true
  · rw [if_pos hc]
    constructor
    · simpa using (List.isEmpty_iff.mp hc).symm
    · intro p hp
      simp at hp
  · rw [if_neg hc]
    exact handle_admin_action_replies _ users

/-- Witness for C9's amended theorem: admin 77 sends "Add 4444 and 5555". -/
theorem handle_text_registers_candidates_witness :
    intStr 77 ∈ ["77"] ∧
    (((handle_text ["77"] [] (some 77) "Add 4444 and 5555").1.map Prod.fst =
      (_extract_candidate_ids "Add 4444 and 5555").filter (fun cid => cid != intStr 77)) ∧
    ∀ p ∈ (handle_text ["77"] [] (some 77) "Add 4444 and 5555").1,
      p.2 = RegStatus.added ∨ p.2 = RegStatus.duplicate) :=
  ⟨by decide,
    handle_text_registers_candidates ["77"] [] 77 "Add 4444 and 5555" (by decide)⟩
